import Mathlib

/-!
Shallow embedding of the campaign data pipeline of the
novamind-ai-marketing-newsletter repository: the campaign loader, tag
sanitizer and delivery orchestrator of `crm_newsletter.py`, the content
store of `ai_generator.py`, and the performance aggregator of
`performance_analysis.py`.

External collaborators (the text-generation call, the email-delivery
HTTP call, the system clock) are passed in as function or value
parameters, mirroring the collaborator boundaries of the spec.  Python
dicts holding records are modelled as structures with `Option` fields
(`none` models both an absent key and an explicit JSON null, exactly the
two cases `dict.get` conflates); dicts used as keyed maps are modelled
as insertion-ordered association lists.  Python strings are `String`;
`str.lower` is modelled by ASCII lower-casing, which agrees with Python
on the ASCII data this pipeline handles.
-/

/-- ASCII lower-casing, modelling Python `str.lower` (the two agree on ASCII). -/
def toLowerStr (s : String) : String :=
  ⟨s.data.map Char.toLower⟩

/-- Python `str.replace(" ", "-")`: every space becomes a hyphen. -/
def replaceSpaces (s : String) : String :=
  ⟨s.data.map (fun c => if c = ' ' then '-' else c)⟩

/-- Characters matched by the character class `[A-Za-z0-9_-]` of the
`ResendClient._slugify_tag` regexes. -/
def isValidTagChar (c : Char) : Bool :=
  (decide ('A' ≤ c) && decide (c ≤ 'Z')) ||
  (decide ('a' ≤ c) && decide (c ≤ 'z')) ||
  (decide ('0' ≤ c) && decide (c ≤ '9')) ||
  c == '_' || c == '-'

/-- Step one of `_slugify_tag`: Python `re.sub(r"[^A-Za-z0-9_-]", "-", value)`,
applied character by character. -/
def dashInvalid (c : Char) : Char :=
  if isValidTagChar c then c else '-'

/-- Step two of `_slugify_tag`: Python `re.sub(r"-{2,}", "-", ...)`, collapsing
every run of two or more hyphens to a single hyphen. -/
def collapseDashes : List Char → List Char
  | [] => []
  | c :: t =>
    match t with
    | [] => [c]
    | c2 :: _ => if c = '-' ∧ c2 = '-' then collapseDashes t else c :: collapseDashes t

/-- Left half of Python `str.strip("-")`: drop leading hyphens. -/
def ldropDash : List Char → List Char
  | [] => []
  | c :: t => if c = '-' then ldropDash t else c :: t

/-- Right half of Python `str.strip("-")`: drop trailing hyphens. -/
def rdropDash : List Char → List Char
  | [] => []
  | c :: t =>
    match rdropDash t with
    | [] => if c = '-' then [] else [c]
    | c2 :: t2 => c :: c2 :: t2

/-- Character-level body of `ResendClient._slugify_tag` (crm_newsletter.py
lines 136-140): sanitize, collapse hyphen runs, strip, fall back. -/
def slugifyTagChars (value fallback : List Char) : List Char :=
  let cleaned := rdropDash (ldropDash (collapseDashes (value.map dashInvalid)))
  if cleaned.isEmpty then fallback else cleaned

/-- The tag sanitizer `ResendClient._slugify_tag` of `crm_newsletter.py`. -/
def ResendClient.slugify_tag (value fallback : String) : String :=
  ⟨slugifyTagChars value.data fallback.data⟩

/-- No two adjacent hyphens anywhere in the list. -/
def noDoubleDash : List Char → Bool
  | c1 :: c2 :: t => if c1 = '-' ∧ c2 = '-' then false else noDoubleDash (c2 :: t)
  | _ => true

/-- The well-formedness the spec requires of sanitized tag values: non-empty,
only `[A-Za-z0-9_-]`, no leading or trailing hyphen, no doubled hyphen. -/
def goodTag (l : List Char) : Bool :=
  !l.isEmpty && l.all isValidTagChar &&
  decide (l.head? ≠ some '-') && decide (l.getLast? ≠ some '-') &&
  noDoubleDash l

/-- Lookup in an insertion-ordered association list modelling a Python dict. -/
def dictLookup {α : Type} : List (String × α) → String → Option α
  | [], _ => none
  | (k', v) :: t, k => if k' = k then some v else dictLookup t k

/-- Key assignment on a Python dict: replace in place when the key is present
(keeping its position), append when new. -/
def dictSet {α : Type} : List (String × α) → String → α → List (String × α)
  | [], k, v => [(k, v)]
  | (k', v') :: t, k, v => if k' = k then (k, v) :: t else (k', v') :: dictSet t k v

/-- A newsletter draft dict as produced by the generator and consumed by the
campaign loader.  `none` models an absent key. -/
structure NewsletterDraft where
  persona : Option String := none
  subject_line : Option String := none
  preview_text : Option String := none
  body : Option String := none
  newsletter_id : Option String := none
  deriving DecidableEq

/-- A contact dict: `email` is always present in the data this pipeline
handles; the other keys may be absent. -/
structure Contact where
  email : String
  first_name : Option String := none
  last_name : Option String := none
  persona : Option String := none
  deriving DecidableEq

/-- The parsed JSON body of a successful Resend response; `id` is
`response.json().get("id")`. -/
structure ResendResponse where
  id : Option String := none
  deriving DecidableEq

/-- The delivery log record built by `_process_contact` (crm_newsletter.py
lines 184-192).  All keys are always present; `resend_id` may be null. -/
structure DeliveryLogEntry where
  email : String
  persona : String
  newsletter_id : String
  blog_title : String
  sent_at : String
  provider : String
  resend_id : Option String
  deriving DecidableEq

/-- Loop body of `load_latest_campaign` (crm_newsletter.py lines 77-82): the
normalized lower-cased key, and the draft with `newsletter_id` synthesized
via `setdefault` when absent. -/
def processDraft (idx : Nat) (letter : NewsletterDraft) : String × NewsletterDraft :=
  let persona := letter.persona.getD ("Persona " ++ toString idx)
  let normalized := toLowerStr persona
  let nid := (letter.newsletter_id).getD (replaceSpaces normalized ++ "-" ++ toString idx)
  (normalized, { letter with newsletter_id := some nid })

/-- Tail-recursive accumulation of the `persona_map` dict built by
`load_latest_campaign`, with the 1-based `enumerate` index. -/
def buildPersonaMapAux : Nat → List NewsletterDraft → List (String × NewsletterDraft) →
    List (String × NewsletterDraft)
  | _, [], m => m
  | idx, l :: t, m => buildPersonaMapAux (idx + 1) t (dictSet m (processDraft idx l).1 (processDraft idx l).2)

/-- The PersonaNewsletterMap construction of `load_latest_campaign`. -/
def buildPersonaMap (newsletters : List NewsletterDraft) : List (String × NewsletterDraft) :=
  buildPersonaMapAux 1 newsletters []

/-- The `(normalized key, processed draft)` pairs in sequence order; used to
state declaratively what the built map contains. -/
def processedDrafts : Nat → List NewsletterDraft → List (String × NewsletterDraft)
  | _, [] => []
  | idx, l :: t => processDraft idx l :: processedDrafts (idx + 1) t

/-- The campaign record returned by `load_latest_campaign`. -/
structure Campaign where
  blog_title : String
  newsletters : List (String × NewsletterDraft)
  deriving DecidableEq

/-- A content package as stored under the `content_package` key of the
generated-content log. -/
structure ContentPackage where
  topic : Option String := none
  newsletters : List NewsletterDraft := []
  deriving DecidableEq

/-- One entry of `generated_content.json` as written by
`save_generated_content` (ai_generator.py lines 130-134). -/
structure ContentLogEntry where
  timestamp : String
  topic : Option String := none
  content_package : Option ContentPackage := none
  deriving DecidableEq

/-- State of a JSON log file: absent, unparseable, a single JSON object
(wrapped into a one-element list by every reader), or a JSON array. -/
inductive JsonFile (α : Type) where
  | missing
  | invalid
  | obj (e : α)
  | arr (es : List α)
  deriving DecidableEq

/-- The list of entries every reader in the repository recovers from an
existing log file before appending (missing and unparseable files are
treated as empty). -/
def readExistingList {α : Type} : JsonFile α → List α
  | .missing => []
  | .invalid => []
  | .obj e => [e]
  | .arr es => es

/-- The append-and-rewrite of `save_local_campaign_log` (crm_newsletter.py
lines 87-103). -/
def save_local_campaign_log {α : Type} (entries : List α) (f : JsonFile α) : JsonFile α :=
  .arr (readExistingList f ++ entries)

/-- Errors raised by the log readers: `FileNotFoundError`,
`json.JSONDecodeError` (propagates uncaught), and the `ValueError` raised on
an empty log. -/
inductive LoadErr where
  | fileNotFound
  | parseError
  | emptyLog
  deriving DecidableEq

/-- The log reader `_load_campaign_entries` (performance_analysis.py lines
17-28); the generated-content read of `load_latest_campaign`
(crm_newsletter.py lines 59-69) follows the same steps. -/
def _load_campaign_entries {α : Type} : JsonFile α → Except LoadErr (List α)
  | .missing => .error .fileNotFound
  | .invalid => .error .parseError
  | .obj e => .ok [e]
  | .arr es => if es.isEmpty then .error .emptyLog else .ok es

/-- One append by `save_generated_content` (ai_generator.py lines 127-150). -/
def save_generated_content (ts topic : String) (package : ContentPackage)
    (f : JsonFile ContentLogEntry) : JsonFile ContentLogEntry :=
  .arr (readExistingList f ++ [{ timestamp := ts, topic := some topic, content_package := some package }])

/-- The entry a `save_generated_content` call appends. -/
def mkContentLogEntry (it : String × String × ContentPackage) : ContentLogEntry :=
  { timestamp := it.1, topic := some it.2.1, content_package := some it.2.2 }

/-- A sequence of `save_generated_content` calls applied in order. -/
def saveAllGenerated (items : List (String × String × ContentPackage))
    (f : JsonFile ContentLogEntry) : JsonFile ContentLogEntry :=
  items.foldl (fun acc it => save_generated_content it.1 it.2.1 it.2.2 acc) f

/-- Topic fallback of `load_latest_campaign` line 73:
`latest_entry.get("topic", "Untitled Campaign")`. -/
def topicFallback (e : ContentLogEntry) : String :=
  e.topic.getD "Untitled Campaign"

/-- Body of `load_latest_campaign` (crm_newsletter.py lines 71-84) applied to
the latest entry: prefer the package topic when truthy, fall back to the
entry topic or the placeholder, and build the persona map.  When the entry
has no `content_package` key the entry itself acts as the package; entries
written by this repository then contribute no newsletters. -/
def campaignOfEntry (e : ContentLogEntry) : Campaign :=
  let pkgTopic : Option String :=
    match e.content_package with
    | some p => p.topic
    | none => e.topic
  let newsletters : List NewsletterDraft :=
    match e.content_package with
    | some p => p.newsletters
    | none => []
  let topic : String :=
    match pkgTopic with
    | some t => if t ≠ "" then t else topicFallback e
    | none => topicFallback e
  { blog_title := topic, newsletters := buildPersonaMap newsletters }

/-- The campaign loader `load_latest_campaign` of `crm_newsletter.py`,
taking the state of `generated_content.json`. -/
def load_latest_campaign (f : JsonFile ContentLogEntry) : Except LoadErr Campaign :=
  match f with
  | .missing => .error .fileNotFound
  | .invalid => .error .parseError
  | .obj e => .ok (campaignOfEntry e)
  | .arr es =>
    match es.getLast? with
    | none => .error .emptyLog
    | some e => .ok (campaignOfEntry e)

/-- Errors a `_process_contact` call can raise.  `missingPersona` and
`unknownPersona` are the `ValueError`s the bulk path catches; `typeError`
is the `TypeError` from joining a `None` persona; `keyError` is the
`KeyError` from a newsletter dict lacking `newsletter_id`;
`deliveryRejected` is the `RuntimeError` from `ResendClient.send`. -/
inductive SendError where
  | missingPersona
  | unknownPersona (msg : String)
  | typeError
  | keyError
  | deliveryRejected (msg : String)
  deriving DecidableEq

/-- Which `SendError`s are Python `ValueError`s, the only class caught by
`orchestrate_campaign`. -/
def isValueError : SendError → Bool
  | .missingPersona => true
  | .unknownPersona _ => true
  | _ => false

/-- Python truthiness of a newsletter-draft dict: an empty dict is falsy.
A draft with every key absent corresponds to the empty dict. -/
def draftTruthy (nl : NewsletterDraft) : Bool :=
  nl.persona.isSome || nl.subject_line.isSome || nl.preview_text.isSome ||
  nl.body.isSome || nl.newsletter_id.isSome

/-- The `_available_personas` helper (crm_newsletter.py lines 163-164):
`persona` of each map value, in insertion order, possibly `None`. -/
def _available_personas (pm : List (String × NewsletterDraft)) : List (Option String) :=
  pm.map (fun pr => pr.2.persona)

/-- Sequence a list of optional strings; `none` when any element is `None`,
which is exactly when Python `", ".join` raises `TypeError`. -/
def sequenceOpts : List (Option String) → Option (List String)
  | [] => some []
  | none :: _ => none
  | some s :: t => (sequenceOpts t).map (fun r => s :: r)

/-- The `", ".join(_available_personas(...))` of the unknown-persona error
message; `none` models the `TypeError` raised on a `None` persona. -/
def availableJoined (pm : List (String × NewsletterDraft)) : Option String :=
  (sequenceOpts (_available_personas pm)).map (String.intercalate ", ")

/-- The per-contact path `_process_contact` (crm_newsletter.py lines
167-192).  `sendFn` is the email-delivery collaborator
(`ResendClient.send`): its error is the `RuntimeError` message on a
non-success status, its success value the parsed response body.  `now` is
the string the UTC clock collaborator renders via
`datetime.now(timezone.utc).isoformat()`. -/
def _process_contact (contact : Contact) (persona_map : List (String × NewsletterDraft))
    (blog_title : String)
    (sendFn : String → NewsletterDraft → String → String → Except String ResendResponse)
    (now : String) : Except SendError DeliveryLogEntry :=
  match contact.persona with
  | none => .error .missingPersona
  | some persona_label =>
    if persona_label = "" then .error .missingPersona
    else
      match dictLookup persona_map (toLowerStr persona_label) with
      | none =>
        match availableJoined persona_map with
        | none => .error .typeError
        | some avail =>
          .error (.unknownPersona ("No newsletter prepared for persona '" ++ persona_label ++
            "'. Available personas: " ++ avail))
      | some newsletter =>
        if draftTruthy newsletter then
          match sendFn contact.email newsletter blog_title persona_label with
          | .error msg => .error (.deliveryRejected msg)
          | .ok send_result =>
            match newsletter.newsletter_id with
            | none => .error .keyError
            | some nid =>
              .ok { email := contact.email, persona := persona_label, newsletter_id := nid,
                    blog_title := blog_title, sent_at := now, provider := "resend",
                    resend_id := send_result.id }
        else
          match availableJoined persona_map with
          | none => .error .typeError
          | some avail =>
            .error (.unknownPersona ("No newsletter prepared for persona '" ++ persona_label ++
              "'. Available personas: " ++ avail))

/-- The single-contact operation `send_newsletter_to_contact`
(crm_newsletter.py lines 203-211), with the campaign already loaded and the
delivery collaborator and clock passed in; returns the one entry together
with the rewritten `campaign_log.json` state. -/
def send_newsletter_to_contact (contact : Contact) (campaign : Campaign)
    (sendFn : String → NewsletterDraft → String → String → Except String ResendResponse)
    (now : String) (logFile : JsonFile DeliveryLogEntry) :
    Except SendError (DeliveryLogEntry × JsonFile DeliveryLogEntry) :=
  match _process_contact contact campaign.newsletters campaign.blog_title sendFn now with
  | .error e => .error e
  | .ok entry => .ok (entry, save_local_campaign_log [entry] logFile)

/-- The contact loop of `orchestrate_campaign` (crm_newsletter.py lines
221-235): per-contact processing, skipping `ValueError`s, accumulating
successes in order.  `now i` is the clock reading of the i-th iteration. -/
def orchLoop (pm : List (String × NewsletterDraft)) (bt : String)
    (sendFn : String → NewsletterDraft → String → String → Except String ResendResponse)
    (now : Nat → String) :
    List Contact → Nat → List DeliveryLogEntry → Except SendError (List DeliveryLogEntry)
  | [], _, acc => .ok acc
  | c :: t, i, acc =>
    match _process_contact c pm bt sendFn (now i) with
    | .ok e => orchLoop pm bt sendFn now t (i + 1) (acc ++ [e])
    | .error err => if isValueError err then orchLoop pm bt sendFn now t (i + 1) acc else .error err

/-- The bulk operation `orchestrate_campaign` (crm_newsletter.py lines
214-244), with contacts and the loaded campaign passed in: runs the loop,
then appends the accumulated entries in one batch, leaving the file
untouched when nothing succeeded.  Console prints are not modelled. -/
def orchestrate_campaign (contacts : List Contact) (pm : List (String × NewsletterDraft))
    (bt : String)
    (sendFn : String → NewsletterDraft → String → String → Except String ResendResponse)
    (now : Nat → String) (logFile : JsonFile DeliveryLogEntry) :
    Except SendError (List DeliveryLogEntry × JsonFile DeliveryLogEntry) :=
  match orchLoop pm bt sendFn now contacts 0 [] with
  | .error e => .error e
  | .ok entries =>
    .ok (entries, if entries.isEmpty then logFile else save_local_campaign_log entries logFile)

/-- Declarative description of the entries the bulk loop accumulates: the
successful results, in iteration order, with the iteration clock. -/
def collectOk (pm : List (String × NewsletterDraft)) (bt : String)
    (sendFn : String → NewsletterDraft → String → String → Except String ResendResponse)
    (now : Nat → String) : List Contact → Nat → List DeliveryLogEntry
  | [], _ => []
  | c :: t, i =>
    match _process_contact c pm bt sendFn (now i) with
    | .ok e => e :: collectOk pm bt sendFn now t (i + 1)
    | .error _ => collectOk pm bt sendFn now t (i + 1)

/-- Whether a per-contact result is a success or a caught `ValueError`. -/
def okOrValueError : Except SendError DeliveryLogEntry → Bool
  | .ok _ => true
  | .error e => isValueError e

/-- A Python `datetime` value as produced by `datetime.fromisoformat`:
calendar fields plus an optional fixed UTC offset in minutes
(`none` models a naive datetime, `some` an aware one). -/
structure PyDT where
  year : Nat
  month : Nat
  day : Nat
  hour : Nat
  minute : Nat
  second : Nat
  usec : Nat
  tzOffsetMinutes : Option Int
  deriving DecidableEq

/-- Days since the era origin for a valid civil date (standard
days-from-civil algorithm); exact day counts, so field-wise comparison of
valid dates agrees with comparison of these values. -/
def daysFromCivil (y m d : Nat) : Nat :=
  let y2 := if m ≤ 2 then y - 1 else y
  let era := y2 / 400
  let yoe := y2 % 400
  let mp := (m + 9) % 12
  let doy := (153 * mp + 2) / 5 + d - 1
  let doe := yoe * 365 + yoe / 4 - yoe / 100 + doy
  era * 146097 + doe

/-- The instant a `PyDT` denotes, in microseconds, with the UTC offset
subtracted for aware values.  Python compares naive datetimes field-wise and
aware datetimes by absolute instant; for valid dates both coincide with
comparison of this key among datetimes of the same kind. -/
def pyDTkey (dt : PyDT) : Int :=
  ((daysFromCivil dt.year dt.month dt.day * 86400 +
      dt.hour * 3600 + dt.minute * 60 + dt.second : Nat) : Int) * 1000000 +
    (dt.usec : Int) - (dt.tzOffsetMinutes.getD 0) * 60000000

/-- Python `a > b` on datetimes: comparing an aware and a naive value raises
`TypeError`, modelled as the error case. -/
def pyGT (a b : PyDT) : Except Unit Bool :=
  match a.tzOffsetMinutes, b.tzOffsetMinutes with
  | some _, some _ => .ok (decide (pyDTkey b < pyDTkey a))
  | none, none => .ok (decide (pyDTkey b < pyDTkey a))
  | _, _ => .error ()

/-- Numeric value of an ASCII digit. -/
def charDigit (c : Char) : Option Nat :=
  if '0' ≤ c ∧ c ≤ '9' then some (c.toNat - '0'.toNat) else none

/-- Read exactly `n` digits, returning their value and the rest. -/
def readDigits : Nat → List Char → Nat → Option (Nat × List Char)
  | 0, l, acc => some (acc, l)
  | _ + 1, [], _ => none
  | n + 1, c :: t, acc =>
    match charDigit c with
    | none => none
    | some d => readDigits n t (acc * 10 + d)

/-- Consume a maximal run of digits. -/
def takeDigits : List Char → List Nat × List Char
  | [] => ([], [])
  | c :: t =>
    match charDigit c with
    | some d =>
      let r := takeDigits t
      (d :: r.1, r.2)
    | none => ([], c :: t)

/-- Gregorian leap year. -/
def isLeap (y : Nat) : Bool :=
  y % 4 == 0 && (y % 100 != 0 || y % 400 == 0)

/-- Length of a month, as `datetime` validates day-of-month. -/
def daysInMonth (y m : Nat) : Nat :=
  if m = 2 then (if isLeap y then 29 else 28)
  else if m = 4 ∨ m = 6 ∨ m = 9 ∨ m = 11 then 30
  else 31

/-- Optional fractional-second part: `.` or `,` followed by one to six
digits, scaled to microseconds.  Returns `none` on a malformed fraction. -/
def readFrac : List Char → Option (Nat × List Char)
  | [] => some (0, [])
  | c :: t =>
    if c = '.' ∨ c = ',' then
      let r := takeDigits t
      if r.1.isEmpty ∨ 6 < r.1.length then none
      else some ((r.1.foldl (fun acc d => acc * 10 + d) 0) * 10 ^ (6 - r.1.length), r.2)
    else some (0, c :: t)

/-- Expect one specific character. -/
def expectCh (c : Char) : List Char → Option (List Char)
  | [] => none
  | x :: t => if x = c then some t else none

/-- Optional trailing UTC-offset part `±HH:MM`; `none` on malformed input,
`some none` when absent (a naive result), `some (some off)` when present. -/
def readOffset : List Char → Option (Option Int)
  | [] => some none
  | s :: t =>
    if s = '+' ∨ s = '-' then
      match readDigits 2 t 0 with
      | none => none
      | some (hh, r1) =>
        match expectCh ':' r1 with
        | none => none
        | some r2 =>
          match readDigits 2 r2 0 with
          | none => none
          | some (mm, r3) =>
            if r3.isEmpty ∧ hh ≤ 23 ∧ mm ≤ 59 then
              some (some ((if s = '-' then (-1 : Int) else 1) * (hh * 60 + mm : Nat)))
            else none
    else none

/-- Time-of-day part `HH:MM:SS` with optional fraction. -/
def readTimePart (l : List Char) : Option (Nat × Nat × Nat × Nat × List Char) :=
  match readDigits 2 l 0 with
  | none => none
  | some (h, r1) =>
    match expectCh ':' r1 with
    | none => none
    | some r2 =>
      match readDigits 2 r2 0 with
      | none => none
      | some (mi, r3) =>
        match expectCh ':' r3 with
        | none => none
        | some r4 =>
          match readDigits 2 r4 0 with
          | none => none
          | some (s, r5) =>
            match readFrac r5 with
            | none => none
            | some (us, r6) => some (h, mi, s, us, r6)

/-- Parser behind the `datetime.fromisoformat` calls of the aggregator,
covering the grammar this pipeline writes and reads:
`YYYY-MM-DD[{T| }HH:MM:SS[.ffffff][±HH:MM]]`, with calendar and range
validation.  Inputs outside this grammar are rejected, as `fromisoformat`
rejects malformed input with `ValueError`. -/
def parseISO (l : List Char) : Option PyDT :=
  match readDigits 4 l 0 with
  | none => none
  | some (y, r1) =>
    match expectCh '-' r1 with
    | none => none
    | some r2 =>
      match readDigits 2 r2 0 with
      | none => none
      | some (mo, r3) =>
        match expectCh '-' r3 with
        | none => none
        | some r4 =>
          match readDigits 2 r4 0 with
          | none => none
          | some (d, r5) =>
            if 1 ≤ y ∧ 1 ≤ mo ∧ mo ≤ 12 ∧ 1 ≤ d ∧ d ≤ daysInMonth y mo then
              match r5 with
              | [] => some ⟨y, mo, d, 0, 0, 0, 0, none⟩
              | sep :: r6 =>
                if sep = 'T' ∨ sep = ' ' then
                  match readTimePart r6 with
                  | none => none
                  | some (h, mi, s, us, r7) =>
                    if h ≤ 23 ∧ mi ≤ 59 ∧ s ≤ 59 then
                      match readOffset r7 with
                      | none => none
                      | some off => some ⟨y, mo, d, h, mi, s, us, off⟩
                    else none
                else none
            else none

/-- Python `datetime.fromisoformat`; `ValueError` is the error case. -/
def fromisoformat (s : String) : Except Unit PyDT :=
  match parseISO s.data with
  | some dt => .ok dt
  | none => .error ()

/-- Python `sent_at.replace("Z", "+00:00")` of performance_analysis.py
line 51. -/
def pyReplaceZ (s : String) : String :=
  ⟨(s.data.map (fun c => if c = 'Z' then "+00:00".data else [c])).flatten⟩

/-- Zero-padded two-digit rendering. -/
def pad2 (n : Nat) : String :=
  if n < 10 then "0" ++ toString n else toString n

/-- Zero-padded four-digit rendering. -/
def pad4 (n : Nat) : String :=
  if n < 10 then "000" ++ toString n
  else if n < 100 then "00" ++ toString n
  else if n < 1000 then "0" ++ toString n
  else toString n

/-- Zero-padded six-digit rendering. -/
def pad6 (n : Nat) : String :=
  if n < 10 then "00000" ++ toString n
  else if n < 100 then "0000" ++ toString n
  else if n < 1000 then "000" ++ toString n
  else if n < 10000 then "00" ++ toString n
  else if n < 100000 then "0" ++ toString n
  else toString n

/-- Python `datetime.isoformat`: microseconds rendered only when non-zero,
the offset as `±HH:MM` for aware values. -/
def isoformatPy (dt : PyDT) : String :=
  pad4 dt.year ++ "-" ++ pad2 dt.month ++ "-" ++ pad2 dt.day ++ "T" ++
    pad2 dt.hour ++ ":" ++ pad2 dt.minute ++ ":" ++ pad2 dt.second ++
    (if dt.usec = 0 then "" else "." ++ pad6 dt.usec) ++
    (match dt.tzOffsetMinutes with
     | none => ""
     | some off =>
       (if off < 0 then "-" else "+") ++
         pad2 (off.natAbs / 60) ++ ":" ++ pad2 (off.natAbs % 60))

/-- One row of `campaign_log.json` as the aggregator reads it: every field
may be absent. -/
structure LogEntryJ where
  email : Option String := none
  persona : Option String := none
  blog_title : Option String := none
  sent_at : Option String := none
  deriving DecidableEq

/-- Grouping key of the aggregator: `entry.get("persona", "Unknown")`. -/
def personaKey (e : LogEntryJ) : String :=
  e.persona.getD "Unknown"

/-- The entries of one persona group, in iteration order. -/
def personaGroup (entries : List LogEntryJ) (p : String) : List LogEntryJ :=
  entries.filter (fun e => personaKey e == p)

/-- Python truthiness of an optional email string: a set element survives the
`if email` filter exactly when it is a non-empty string. -/
def truthyOptStr : Option String → Bool
  | some s => !(s == "")
  | none => false

/-- The per-persona accumulator dict of `_aggregate_performance` before the
serialization pass (performance_analysis.py lines 33-40);
`unique_contacts` models the Python set as a duplicate-free list in
insertion order. -/
structure RawStats where
  send_count : Nat
  unique_contacts : List (Option String)
  latest_blog : Option String
  last_sent_at : Option PyDT
  deriving DecidableEq

/-- The defaultdict default of the aggregator. -/
def defaultRawStats : RawStats :=
  { send_count := 0, unique_contacts := [], latest_blog := none, last_sent_at := none }

/-- Python `set.add`: insert when absent. -/
def setInsert (s : List (Option String)) (x : Option String) : List (Option String) :=
  if x ∈ s then s else s ++ [x]

/-- The only uncaught error the aggregation loop can raise: the `TypeError`
of an aware-versus-naive datetime comparison (only `ValueError` is caught
around the timestamp handling). -/
inductive AggErr where
  | typeError
  deriving DecidableEq

/-- Loop body of `_aggregate_performance` (performance_analysis.py lines
42-55) on one group's stats: count, record the email, overwrite the latest
blog, and fold the parsed timestamp into the running maximum, ignoring
`ValueError` but propagating the `TypeError` of a mixed comparison. -/
def updateStats (st : RawStats) (e : LogEntryJ) : Except AggErr RawStats :=
  let st1 : RawStats :=
    { send_count := st.send_count + 1,
      unique_contacts := setInsert st.unique_contacts e.email,
      latest_blog := e.blog_title,
      last_sent_at := st.last_sent_at }
  match e.sent_at with
  | none => .ok st1
  | some s =>
    if s = "" then .ok st1
    else
      match fromisoformat (pyReplaceZ s) with
      | .error _ => .ok st1
      | .ok dt =>
        match st.last_sent_at with
        | none => .ok { st1 with last_sent_at := some dt }
        | some prev =>
          match pyGT dt prev with
          | .error _ => .error .typeError
          | .ok b => .ok (if b then { st1 with last_sent_at := some dt } else st1)

/-- One iteration of the aggregation loop over the stats dict. -/
def stepEntry (m : List (String × RawStats)) (e : LogEntryJ) :
    Except AggErr (List (String × RawStats)) :=
  let k := personaKey e
  match updateStats ((dictLookup m k).getD defaultRawStats) e with
  | .error er => .error er
  | .ok st => .ok (dictSet m k st)

/-- The aggregation loop over all entries. -/
def aggLoop (m : List (String × RawStats)) : List LogEntryJ → Except AggErr (List (String × RawStats))
  | [] => .ok m
  | e :: t =>
    match stepEntry m e with
    | .error er => .error er
    | .ok m2 => aggLoop m2 t

/-- A serialized per-persona row of the performance snapshot. -/
structure PersonaStats where
  send_count : Nat
  unique_contacts : Nat
  latest_blog : Option String
  last_sent_at : String
  deriving DecidableEq

/-- The serialization pass of `_aggregate_performance` (performance_analysis.py
lines 57-63): count the truthy emails, render the timestamp or `"N/A"`. -/
def finalizeStats (st : RawStats) : PersonaStats :=
  { send_count := st.send_count,
    unique_contacts := (st.unique_contacts.filter truthyOptStr).length,
    latest_blog := st.latest_blog,
    last_sent_at :=
      match st.last_sent_at with
      | some dt => isoformatPy dt
      | none => "N/A" }

/-- The aggregator `_aggregate_performance` of `performance_analysis.py`. -/
def _aggregate_performance (entries : List LogEntryJ) :
    Except AggErr (List (String × PersonaStats)) :=
  match aggLoop [] entries with
  | .error e => .error e
  | .ok m => .ok (m.map (fun kv => (kv.1, finalizeStats kv.2)))

/-- Sequential fold of `updateStats` over one persona group, used to state
what the loop leaves in that group's slot. -/
def groupFold (st : RawStats) : List LogEntryJ → Except AggErr RawStats
  | [] => .ok st
  | e :: t =>
    match updateStats st e with
    | .error er => .error er
    | .ok st2 => groupFold st2 t

/-- Failures of `analyze_performance`: a reader error, or the uncaught
`TypeError` escaping the aggregation. -/
inductive AnalyzeErr where
  | load (e : LoadErr)
  | aggregateTypeError
  deriving DecidableEq

/-- What `analyze_performance` leaves behind: the returned summary and
snapshot, and the `performance_log.json` content after the run. -/
structure AnalyzeOutcome where
  summary : String
  performance : List (String × PersonaStats)
  performance_file : Option (List (String × PersonaStats))
  deriving DecidableEq

/-- The operation `analyze_performance` (performance_analysis.py lines
96-109), with `campaign_log.json` passed as state and the summary
construction (the `_build_summary` call around the text-generation
collaborator) passed as a function whose error is the stringified exception.
The snapshot is persisted before the summary is attempted, and a summary
failure is converted into an in-band diagnostic string. -/
def analyze_performance (campaignFile : JsonFile LogEntryJ)
    (buildSummaryFn : List (String × PersonaStats) → Except String String) :
    Except AnalyzeErr AnalyzeOutcome :=
  match _load_campaign_entries campaignFile with
  | .error e => .error (.load e)
  | .ok entries =>
    match _aggregate_performance entries with
    | .error _ => .error .aggregateTypeError
    | .ok perf =>
      match buildSummaryFn perf with
      | .ok s => .ok { summary := s, performance := perf, performance_file := some perf }
      | .error msg =>
        .ok { summary := "Error generating AI summary: " ++ msg, performance := perf,
              performance_file := some perf }

/-- The newsletter drafts of the spec's bulk-send scenario: one per
generator persona. -/
def scenarioDrafts : List NewsletterDraft :=
  [{ persona := some "Startup Founder" },
   { persona := some "Enterprise Marketing Director" },
   { persona := some "Freelance Creative Strategist" }]

/-- The content package of the spec's bulk-send scenario. -/
def scenarioPackage : ContentPackage :=
  { topic := some "Blog", newsletters := scenarioDrafts }

/-- The single content-log entry of the spec's bulk-send scenario. -/
def scenarioContentEntry : ContentLogEntry :=
  { timestamp := "TS", topic := some "Blog", content_package := some scenarioPackage }

/-- The contact list of the spec's bulk-send scenario. -/
def scenarioContacts : List Contact :=
  [{ email := "a@x.com", persona := some "Startup Founder" },
   { email := "b@x.com", persona := some "Unknown Persona" }]

/-- The single delivery entry the scenario is expected to produce. -/
def scenarioEntryA : DeliveryLogEntry :=
  { email := "a@x.com", persona := "Startup Founder", newsletter_id := "startup-founder-1",
    blog_title := "Blog", sent_at := "T", provider := "resend", resend_id := some "rid" }

/-- The delivery log of the spec's aggregation scenario: three entries for
persona "Founder" with emails a, a, b. -/
def founderEntries : List LogEntryJ :=
  [{ email := some "a@x.com", persona := some "Founder", blog_title := some "B1" },
   { email := some "a@x.com", persona := some "Founder", blog_title := some "B2" },
   { email := some "b@x.com", persona := some "Founder", blog_title := some "B3" }]

/-- The snapshot row the aggregation scenario is expected to produce. -/
def founderStats : PersonaStats :=
  { send_count := 3, unique_contacts := 2, latest_blog := some "B3", last_sent_at := "N/A" }

/-! Auxiliary lemmas about the tag sanitizer. -/

theorem isValidTagChar_dashInvalid (c : Char) : isValidTagChar (dashInvalid c) = true := by
  unfold dashInvalid
  cases h : isValidTagChar c
  · simp only [h, Bool.false_eq_true, if_false]
    decide
  · simp [h]

theorem collapseDashes_nil_eq : collapseDashes [] = [] := rfl

theorem collapseDashes_single (c : Char) : collapseDashes [c] = [c] := rfl

theorem collapseDashes_cons2_dash {c c2 : Char} (t : List Char) (h : c = '-' ∧ c2 = '-') :
    collapseDashes (c :: c2 :: t) = collapseDashes (c2 :: t) := by
  simp [collapseDashes, h]

theorem collapseDashes_cons2_nodash {c c2 : Char} (t : List Char) (h : ¬(c = '-' ∧ c2 = '-')) :
    collapseDashes (c :: c2 :: t) = c :: collapseDashes (c2 :: t) := by
  simp [collapseDashes, h]

theorem mem_collapseDashes : ∀ (l : List Char) (x : Char), x ∈ collapseDashes l → x ∈ l := by
  intro l
  induction l with
  | nil => intro x h; simp [collapseDashes_nil_eq] at h
  | cons c t ih =>
    intro x h
    cases t with
    | nil => simpa [collapseDashes_single] using h
    | cons c2 t2 =>
      by_cases hd : c = '-' ∧ c2 = '-'
      · rw [collapseDashes_cons2_dash t2 hd] at h
        exact List.mem_cons_of_mem _ (ih x h)
      · rw [collapseDashes_cons2_nodash t2 hd] at h
        rcases List.mem_cons.mp h with h1 | h1
        · exact h1 ▸ List.mem_cons_self _ _
        · exact List.mem_cons_of_mem _ (ih x h1)

theorem collapseDashes_cons_head (l : List Char) : ∀ c, ∃ t, collapseDashes (c :: l) = c :: t := by
  induction l with
  | nil => intro c; exact ⟨[], rfl⟩
  | cons c2 t2 ih =>
    intro c
    by_cases hd : c = '-' ∧ c2 = '-'
    · obtain ⟨t3, ht⟩ := ih c2
      refine ⟨t3, ?_⟩
      rw [collapseDashes_cons2_dash t2 hd, ht, hd.1, hd.2]
    · exact ⟨collapseDashes (c2 :: t2), collapseDashes_cons2_nodash t2 hd⟩

theorem noDD_cons_of (c : Char) (t : List Char) (h : noDoubleDash (c :: t) = true) :
    noDoubleDash t = true := by
  cases t with
  | nil => rfl
  | cons c2 t2 =>
    by_cases hd : c = '-' ∧ c2 = '-'
    · rw [show noDoubleDash (c :: c2 :: t2) = false from by simp [noDoubleDash, hd]] at h
      exact absurd h (by simp)
    · rwa [show noDoubleDash (c :: c2 :: t2) = noDoubleDash (c2 :: t2) from by
        simp [noDoubleDash, hd]] at h

theorem noDD_collapseDashes : ∀ l : List Char, noDoubleDash (collapseDashes l) = true := by
  intro l
  induction l with
  | nil => rfl
  | cons c t ih =>
    cases t with
    | nil => rfl
    | cons c2 t2 =>
      by_cases hd : c = '-' ∧ c2 = '-'
      · rwa [collapseDashes_cons2_dash t2 hd]
      · rw [collapseDashes_cons2_nodash t2 hd]
        obtain ⟨t3, ht⟩ := collapseDashes_cons_head t2 c2
        rw [ht]
        rw [ht] at ih
        rw [show noDoubleDash (c :: c2 :: t3) = noDoubleDash (c2 :: t3) from by
          simp [noDoubleDash, hd]]
        exact ih

theorem mem_ldropDash : ∀ (l : List Char) (x : Char), x ∈ ldropDash l → x ∈ l := by
  intro l
  induction l with
  | nil => intro x h; simp [ldropDash] at h
  | cons c t ih =>
    intro x h
    by_cases hc : c = '-'
    · rw [show ldropDash (c :: t) = ldropDash t from by simp [ldropDash, hc]] at h
      exact List.mem_cons_of_mem _ (ih x h)
    · rwa [show ldropDash (c :: t) = c :: t from by simp [ldropDash, hc]] at h

theorem ldropDash_head_ne : ∀ (l : List Char) (c : Char) (t : List Char),
    ldropDash l = c :: t → c ≠ '-' := by
  intro l
  induction l with
  | nil => intro c t h; exact absurd h (by simp [ldropDash])
  | cons a s ih =>
    intro c t h
    by_cases ha : a = '-'
    · rw [show ldropDash (a :: s) = ldropDash s from by simp [ldropDash, ha]] at h
      exact ih c t h
    · rw [show ldropDash (a :: s) = a :: s from by simp [ldropDash, ha]] at h
      injection h with h1 h2
      exact h1 ▸ ha

theorem getLast?_cons_cons_eq (a b : Char) (l : List Char) :
    (a :: b :: l).getLast? = (b :: l).getLast? := by
  simp [List.getLast?]

theorem mem_rdropDash : ∀ (l : List Char) (x : Char), x ∈ rdropDash l → x ∈ l := by
  intro l
  induction l with
  | nil => intro x h; simp [rdropDash] at h
  | cons a s ih =>
    intro x h
    cases hr : rdropDash s with
    | nil =>
      by_cases ha : a = '-'
      · rw [show rdropDash (a :: s) = [] from by simp [rdropDash, hr, ha]] at h
        simp at h
      · rw [show rdropDash (a :: s) = [a] from by simp [rdropDash, hr, ha]] at h
        simp at h
        exact h ▸ List.mem_cons_self _ _
    | cons c2 t2 =>
      rw [show rdropDash (a :: s) = a :: c2 :: t2 from by simp [rdropDash, hr]] at h
      rcases List.mem_cons.mp h with h1 | h1
      · exact h1 ▸ List.mem_cons_self _ _
      · exact List.mem_cons_of_mem _ (ih x (hr ▸ h1))

theorem rdropDash_head : ∀ (l : List Char) (c : Char) (t : List Char),
    rdropDash l = c :: t → ∃ t2, l = c :: t2 := by
  intro l c t h
  cases l with
  | nil => exact absurd h (by simp [rdropDash])
  | cons a s =>
    cases hr : rdropDash s with
    | nil =>
      by_cases ha : a = '-'
      · rw [show rdropDash (a :: s) = [] from by simp [rdropDash, hr, ha]] at h
        exact absurd h (by simp)
      · rw [show rdropDash (a :: s) = [a] from by simp [rdropDash, hr, ha]] at h
        injection h with h1 h2
        exact ⟨s, by rw [h1]⟩
    | cons c2 t2 =>
      rw [show rdropDash (a :: s) = a :: c2 :: t2 from by simp [rdropDash, hr]] at h
      injection h with h1 h2
      exact ⟨s, by rw [h1]⟩

theorem rdropDash_last : ∀ (l : List Char) (c : Char) (t : List Char),
    rdropDash l = c :: t → (c :: t).getLast? ≠ some '-' := by
  intro l
  induction l with
  | nil => intro c t h; exact absurd h (by simp [rdropDash])
  | cons a s ih =>
    intro c t h
    cases hr : rdropDash s with
    | nil =>
      by_cases ha : a = '-'
      · rw [show rdropDash (a :: s) = [] from by simp [rdropDash, hr, ha]] at h
        exact absurd h (by simp)
      · rw [show rdropDash (a :: s) = [a] from by simp [rdropDash, hr, ha]] at h
        injection h with h1 h2
        subst h1
        subst h2
        simpa [List.getLast?] using ha
    | cons c2 t2 =>
      rw [show rdropDash (a :: s) = a :: c2 :: t2 from by simp [rdropDash, hr]] at h
      injection h with h1 h2
      subst h1
      subst h2
      rw [getLast?_cons_cons_eq]
      exact ih c2 t2 hr

theorem noDD_rdropDash : ∀ l : List Char, noDoubleDash l = true →
    noDoubleDash (rdropDash l) = true := by
  intro l
  induction l with
  | nil => intro h; exact h
  | cons a s ih =>
    intro h
    cases hr : rdropDash s with
    | nil =>
      by_cases ha : a = '-'
      · rw [show rdropDash (a :: s) = [] from by simp [rdropDash, hr, ha]]
        rfl
      · rw [show rdropDash (a :: s) = [a] from by simp [rdropDash, hr, ha]]
        rfl
    | cons c2 t2 =>
      rw [show rdropDash (a :: s) = a :: c2 :: t2 from by simp [rdropDash, hr]]
      obtain ⟨s2, hs⟩ := rdropDash_head s c2 t2 hr
      subst hs
      by_cases hd : a = '-' ∧ c2 = '-'
      · rw [show noDoubleDash (a :: c2 :: s2) = false from by simp [noDoubleDash, hd]] at h
        exact absurd h (by simp)
      · rw [show noDoubleDash (a :: c2 :: t2) = noDoubleDash (c2 :: t2) from by
          simp [noDoubleDash, hd]]
        exact hr ▸ ih (noDD_cons_of a (c2 :: s2) h)

theorem noDD_ldropDash : ∀ l : List Char, noDoubleDash l = true →
    noDoubleDash (ldropDash l) = true := by
  intro l
  induction l with
  | nil => intro h; exact h
  | cons c t ih =>
    intro h
    by_cases hc : c = '-'
    · rw [show ldropDash (c :: t) = ldropDash t from by simp [ldropDash, hc]]
      exact ih (noDD_cons_of c t h)
    · rwa [show ldropDash (c :: t) = c :: t from by simp [ldropDash, hc]]

theorem goodTag_of_parts (l : List Char) (hne : l.isEmpty = false)
    (hall : ∀ x ∈ l, isValidTagChar x = true)
    (hhead : l.head? ≠ some '-') (hlast : l.getLast? ≠ some '-')
    (hnd : noDoubleDash l = true) : goodTag l = true := by
  unfold goodTag
  simp [hne, List.all_eq_true, hhead, hlast, hnd]
  exact hall

theorem goodTag_slugifyTagChars (v fb : List Char) (hfb : goodTag fb = true) :
    goodTag (slugifyTagChars v fb) = true := by
  show goodTag (if (rdropDash (ldropDash (collapseDashes (v.map dashInvalid)))).isEmpty
      then fb else rdropDash (ldropDash (collapseDashes (v.map dashInvalid)))) = true
  by_cases hXe : (rdropDash (ldropDash (collapseDashes (v.map dashInvalid)))).isEmpty = true
  · rw [if_pos hXe]; exact hfb
  · rw [if_neg hXe]
    cases hc : rdropDash (ldropDash (collapseDashes (v.map dashInvalid))) with
    | nil => rw [hc] at hXe; exact absurd rfl hXe
    | cons c t =>
      refine goodTag_of_parts _ (by simp) ?_ ?_ ?_ ?_
      · intro x hx
        have hx0 : x ∈ rdropDash (ldropDash (collapseDashes (v.map dashInvalid))) := hc ▸ hx
        have hx1 := mem_ldropDash _ _ (mem_rdropDash _ _ hx0)
        have hx2 := mem_collapseDashes _ _ hx1
        obtain ⟨a, _, ha⟩ := List.mem_map.mp hx2
        exact ha ▸ isValidTagChar_dashInvalid a
      · obtain ⟨t2, ht2⟩ := rdropDash_head _ _ _ hc
        have hcne := ldropDash_head_ne _ _ _ ht2
        simpa [List.head?] using hcne
      · exact rdropDash_last _ _ _ hc
      · have hnd := noDD_rdropDash _ (noDD_ldropDash _ (noDD_collapseDashes (v.map dashInvalid)))
        exact hc ▸ hnd

/-- C4: for every input string, the tag sanitizer `_slugify_tag` returns a
string containing only characters from `[A-Za-z0-9_-]`, with no leading,
trailing or doubled hyphen, and never empty; at the two call sites' fixed
fallback placeholders ("persona" for the persona tag, "campaign" for the
campaign tag) the fallback itself is returned when sanitization removes
everything, as on the all-invalid input "???". -/
theorem slugify_tag_sound (value : String) :
    goodTag (ResendClient.slugify_tag value "persona").data = true ∧
    goodTag (ResendClient.slugify_tag value "campaign").data = true ∧
    ResendClient.slugify_tag "???" "persona" = "persona" ∧
    ResendClient.slugify_tag "???" "campaign" = "campaign" := by
  refine ⟨?_, ?_, by decide, by decide⟩
  · exact goodTag_slugifyTagChars value.data "persona".data (by decide)
  · exact goodTag_slugifyTagChars value.data "campaign".data (by decide)

/-! Auxiliary lemmas about the dict model and the persona map. -/

theorem dictLookup_dictSet_self {α : Type} (m : List (String × α)) (k : String) (v : α) :
    dictLookup (dictSet m k v) k = some v := by
  induction m with
  | nil => simp [dictSet, dictLookup]
  | cons p t ih =>
    obtain ⟨k2, v2⟩ := p
    by_cases hk : k2 = k
    · simp [dictSet, hk, dictLookup]
    · simp [dictSet, hk, dictLookup, ih]

theorem dictLookup_dictSet_ne {α : Type} (m : List (String × α)) (k k2 : String) (v : α)
    (h : k ≠ k2) : dictLookup (dictSet m k v) k2 = dictLookup m k2 := by
  induction m with
  | nil => simp [dictSet, dictLookup, h]
  | cons p t ih =>
    obtain ⟨k3, v3⟩ := p
    by_cases hk : k3 = k
    · subst hk
      simp [dictSet, dictLookup, h]
    · by_cases hk2 : k3 = k2
      · subst hk2
        simp [dictSet, dictLookup, hk]
      · simp [dictSet, dictLookup, hk, hk2, ih]

theorem getLast?_cons_cons_gen {α : Type} (a b : α) (l : List α) :
    (a :: b :: l).getLast? = (b :: l).getLast? := by
  simp [List.getLast?]

theorem getLast?_cons_some {α : Type} (x y : α) (l : List α) (h : l.getLast? = some y) :
    (x :: l).getLast? = some y := by
  cases l with
  | nil => simp at h
  | cons b t => rw [getLast?_cons_cons_gen]; exact h

theorem getLast?_cons_none {α : Type} (x : α) (l : List α) (h : l.getLast? = none) :
    (x :: l).getLast? = some x := by
  cases l with
  | nil => rfl
  | cons b t => simp [List.getLast?] at h

theorem mem_of_getLast?_eq {α : Type} : ∀ (l : List α) (a : α), l.getLast? = some a → a ∈ l := by
  intro l
  induction l with
  | nil => intro a h; simp at h
  | cons x t ih =>
    intro a h
    cases t with
    | nil =>
      simp [List.getLast?] at h
      exact h ▸ List.mem_cons_self _ _
    | cons b t2 =>
      rw [getLast?_cons_cons_gen] at h
      exact List.mem_cons_of_mem _ (ih a h)

theorem dictLookup_buildPersonaMapAux : ∀ (nls : List NewsletterDraft) (idx : Nat)
    (m : List (String × NewsletterDraft)) (k : String),
    dictLookup (buildPersonaMapAux idx nls m) k =
      (match ((processedDrafts idx nls).filter (fun pr => pr.1 == k)).getLast? with
       | some pr => some pr.2
       | none => dictLookup m k) := by
  intro nls
  induction nls with
  | nil => intro idx m k; simp [buildPersonaMapAux, processedDrafts]
  | cons L T ih =>
    intro idx m k
    rw [show buildPersonaMapAux idx (L :: T) m =
      buildPersonaMapAux (idx + 1) T (dictSet m (processDraft idx L).1 (processDraft idx L).2)
      from rfl]
    rw [ih]
    rw [show processedDrafts idx (L :: T) = processDraft idx L :: processedDrafts (idx + 1) T
      from rfl]
    by_cases hk : (processDraft idx L).1 = k
    · rw [show (processDraft idx L :: processedDrafts (idx + 1) T).filter
          (fun pr => pr.1 == k) =
        processDraft idx L :: (processedDrafts (idx + 1) T).filter (fun pr => pr.1 == k) from by
          simp [List.filter_cons, hk]]
      cases hf : ((processedDrafts (idx + 1) T).filter (fun pr => pr.1 == k)).getLast? with
      | some pr => rw [getLast?_cons_some _ _ _ hf]
      | none =>
        rw [getLast?_cons_none _ _ hf]
        rw [show dictLookup (dictSet m (processDraft idx L).1 (processDraft idx L).2) k =
          some (processDraft idx L).2 from hk ▸ dictLookup_dictSet_self m _ _]
    · rw [show (processDraft idx L :: processedDrafts (idx + 1) T).filter
          (fun pr => pr.1 == k) =
        (processedDrafts (idx + 1) T).filter (fun pr => pr.1 == k) from by
          simp [List.filter_cons, hk]]
      cases hf : ((processedDrafts (idx + 1) T).filter (fun pr => pr.1 == k)).getLast? with
      | some pr => rfl
      | none => exact dictLookup_dictSet_ne m _ k _ hk

theorem processedDrafts_id_isSome : ∀ (nls : List NewsletterDraft) (idx : Nat)
    (pr : String × NewsletterDraft), pr ∈ processedDrafts idx nls →
    pr.2.newsletter_id.isSome = true := by
  intro nls
  induction nls with
  | nil => intro idx pr h; simp [processedDrafts] at h
  | cons L T ih =>
    intro idx pr h
    rw [show processedDrafts idx (L :: T) = processDraft idx L :: processedDrafts (idx + 1) T
      from rfl] at h
    rcases List.mem_cons.mp h with h1 | h1
    · subst h1
      cases hid : L.newsletter_id <;> simp [processDraft, hid]
    · exact ih (idx + 1) pr h1

/-- C5: the PersonaNewsletterMap is keyed by the lower-cased persona name and
lookup resolves to the last draft in sequence order whose normalized persona
equals the key, so a later colliding draft silently replaces an earlier one;
a contact with persona "Startup Founder" is delivered the newsletter tagged
"startup founder" because `_process_contact` lower-cases the contact persona
before the lookup; and with drafts "Foo" then "fOO" the map holds the later
draft under the shared key "foo". -/
theorem persona_lookup_case_insensitive_last_wins :
    (∀ (nls : List NewsletterDraft) (k : String),
      dictLookup (buildPersonaMap nls) k =
        (match ((processedDrafts 1 nls).filter (fun pr => pr.1 == k)).getLast? with
         | some pr => some pr.2
         | none => none)) ∧
    (_process_contact { email := "c@x.com", persona := some "Startup Founder" }
        (buildPersonaMap [{ persona := some "startup founder" }]) "Blog"
        (fun _ _ _ _ => .ok { id := some "rid" }) "T" =
      .ok { email := "c@x.com", persona := "Startup Founder",
            newsletter_id := "startup-founder-1", blog_title := "Blog", sent_at := "T",
            provider := "resend", resend_id := some "rid" }) ∧
    (dictLookup (buildPersonaMap
        [{ persona := some "Foo", newsletter_id := some "first" },
         { persona := some "fOO", newsletter_id := some "second" }]) "foo" =
      some { persona := some "fOO", newsletter_id := some "second" }) := by
  refine ⟨?_, rfl, rfl⟩
  intro nls k
  rw [show buildPersonaMap nls = buildPersonaMapAux 1 nls [] from rfl,
    dictLookup_buildPersonaMapAux]
  cases ((processedDrafts 1 nls).filter (fun pr => pr.1 == k)).getLast? <;> rfl

/-- C6 counterexample: for a single draft with persona "A/B" and no
newsletter_id, the loader synthesizes the id "a/b-1", which contains '/',
a character outside `[A-Za-z0-9_-]`, and differs from what the sanitizer
slug of the persona would give ("A-B"), so the synthesized id is not the
slug of the persona name. -/
theorem newsletter_id_not_slug_counterexample :
    (dictLookup (buildPersonaMap [{ persona := some "A/B" }]) "a/b").bind
        (fun nl => nl.newsletter_id) = some "a/b-1" ∧
    '/' ∈ "a/b-1".data ∧ isValidTagChar '/' = false ∧
    ResendClient.slugify_tag "A/B" "persona" = "A-B" := by
  exact ⟨rfl, by decide, by decide, by decide⟩

/-- C6 (amended): for every draft without a newsletter_id,
`load_latest_campaign` synthesizes the id as the lower-cased persona name
with spaces replaced by hyphens (no further sanitization) followed by '-'
and the draft's 1-based position; a draft that already carries a
newsletter_id keeps it unchanged, and every value of the built map carries
a newsletter_id. -/
theorem newsletter_id_synthesis_amended :
    (∀ (idx : Nat) (letter : NewsletterDraft),
      (processDraft idx letter).2.newsletter_id =
        some (match letter.newsletter_id with
              | some nid => nid
              | none =>
                replaceSpaces (toLowerStr (letter.persona.getD ("Persona " ++ toString idx))) ++
                  "-" ++ toString idx)) ∧
    (∀ (nls : List NewsletterDraft) (k : String) (nl : NewsletterDraft),
      dictLookup (buildPersonaMap nls) k = some nl → nl.newsletter_id.isSome = true) := by
  constructor
  · intro idx letter
    cases hid : letter.newsletter_id <;> simp [processDraft, hid]
  · intro nls k nl h
    rw [show buildPersonaMap nls = buildPersonaMapAux 1 nls [] from rfl,
      dictLookup_buildPersonaMapAux] at h
    cases hf : ((processedDrafts 1 nls).filter (fun pr => pr.1 == k)).getLast? with
    | some pr =>
      rw [hf] at h
      have hmem : pr ∈ (processedDrafts 1 nls).filter (fun pr => pr.1 == k) :=
        mem_of_getLast?_eq _ _ hf
      have hmem2 : pr ∈ processedDrafts 1 nls := (List.mem_filter.mp hmem).1
      have := processedDrafts_id_isSome nls 1 pr hmem2
      injection h with h2
      exact h2 ▸ this
    | none =>
      rw [hf] at h
      exact absurd h (by simp [dictLookup])

/-- Witness for the amended C6 theorem at concrete inputs: a draft with
persona "Hi There" at position 3 gets id "hi-there-3", and a concrete map
value carries a newsletter_id. -/
theorem newsletter_id_synthesis_amended_witness :
    (processDraft 3 { persona := some "Hi There" }).2.newsletter_id = some "hi-there-3" ∧
    ((dictLookup (buildPersonaMap [{ persona := some "A" }]) "a").map
      (fun nl => nl.newsletter_id.isSome)) = some true := by
  constructor
  · exact (newsletter_id_synthesis_amended.1 3 { persona := some "Hi There" }).trans rfl
  · have h := newsletter_id_synthesis_amended.2 [{ persona := some "A" }] "a"
      { persona := some "A", newsletter_id := some "a-1" } rfl
    rw [show dictLookup (buildPersonaMap [{ persona := some "A" }]) "a" =
      some { persona := some "A", newsletter_id := some "a-1" } from rfl]
    simp [h]

/-! Claims about the per-contact delivery path. -/

/-- C1: for every contact whose persona is present and non-empty and whose
lower-cased persona resolves in the campaign's PersonaNewsletterMap, and
whose delivery call succeeds, `send_newsletter_to_contact` (via
`_process_contact`) returns exactly one DeliveryLogEntry whose persona
equals the contact's original non-normalized persona string, whose sent_at
is the UTC clock reading passed in (the code renders it with
`datetime.now(timezone.utc).isoformat()`, a UTC ISO-8601 timestamp), whose
provider is the constant "resend", and whose resend_id is the
provider-assigned id, `none` when absent from the response body; that one
entry is also the only record appended to the delivery log. -/
theorem sendToContact_success_entry
    (contact : Contact) (campaign : Campaign) (p nid : String) (nl : NewsletterDraft)
    (resp : ResendResponse)
    (sendFn : String → NewsletterDraft → String → String → Except String ResendResponse)
    (now : String) (logFile : JsonFile DeliveryLogEntry)
    (hp : contact.persona = some p) (hne : p ≠ "")
    (hlook : dictLookup campaign.newsletters (toLowerStr p) = some nl)
    (htr : draftTruthy nl = true)
    (hid : nl.newsletter_id = some nid)
    (hsend : sendFn contact.email nl campaign.blog_title p = .ok resp) :
    send_newsletter_to_contact contact campaign sendFn now logFile =
      .ok ({ email := contact.email, persona := p, newsletter_id := nid,
             blog_title := campaign.blog_title, sent_at := now, provider := "resend",
             resend_id := resp.id },
           .arr (readExistingList logFile ++
             [{ email := contact.email, persona := p, newsletter_id := nid,
                blog_title := campaign.blog_title, sent_at := now, provider := "resend",
                resend_id := resp.id }])) := by
  unfold send_newsletter_to_contact _process_contact
  rw [hp]
  simp [hne, hlook, htr, hid, hsend, save_local_campaign_log]

/-- Witness for C1 at a concrete contact, campaign, response and clock. -/
theorem sendToContact_success_entry_witness :
    send_newsletter_to_contact { email := "c@x.com", persona := some "Startup Founder" }
      { blog_title := "Blog",
        newsletters := buildPersonaMap [{ persona := some "Startup Founder" }] }
      (fun _ _ _ _ => .ok { id := some "rid" }) "2024-01-01T00:00:00+00:00"
      (.arr []) =
    .ok ({ email := "c@x.com", persona := "Startup Founder",
           newsletter_id := "startup-founder-1", blog_title := "Blog",
           sent_at := "2024-01-01T00:00:00+00:00", provider := "resend",
           resend_id := some "rid" },
         .arr [{ email := "c@x.com", persona := "Startup Founder",
                 newsletter_id := "startup-founder-1", blog_title := "Blog",
                 sent_at := "2024-01-01T00:00:00+00:00", provider := "resend",
                 resend_id := some "rid" }]) := by
  have h := sendToContact_success_entry
    { email := "c@x.com", persona := some "Startup Founder" }
    { blog_title := "Blog",
      newsletters := buildPersonaMap [{ persona := some "Startup Founder" }] }
    "Startup Founder" "startup-founder-1"
    { persona := some "Startup Founder", newsletter_id := some "startup-founder-1" }
    { id := some "rid" } (fun _ _ _ _ => .ok { id := some "rid" })
    "2024-01-01T00:00:00+00:00" (.arr []) rfl (by decide) rfl rfl rfl rfl
  exact h

theorem dictLookup_mem {α : Type} : ∀ (m : List (String × α)) (k : String) (v : α),
    dictLookup m k = some v → ∃ k2, (k2, v) ∈ m := by
  intro m
  induction m with
  | nil => intro k v h; simp [dictLookup] at h
  | cons q t ih =>
    intro k v h
    obtain ⟨k3, v3⟩ := q
    by_cases hk : k3 = k
    · rw [show dictLookup ((k3, v3) :: t) k = some v3 from by simp [dictLookup, hk]] at h
      injection h with h2
      exact ⟨k3, h2 ▸ List.mem_cons_self _ _⟩
    · rw [show dictLookup ((k3, v3) :: t) k = dictLookup t k from by simp [dictLookup, hk]] at h
      obtain ⟨k2, hmem⟩ := ih k v h
      exact ⟨k2, List.mem_cons_of_mem _ hmem⟩

theorem sequenceOpts_all_some : ∀ (pm : List (String × NewsletterDraft)),
    (∀ pr ∈ pm, (pr.2).persona.isSome = true) →
    sequenceOpts (_available_personas pm) =
      some (pm.filterMap (fun pr => pr.2.persona)) := by
  intro pm
  induction pm with
  | nil => intro h; rfl
  | cons q t ih =>
    intro h
    have hq := h q (List.mem_cons_self _ _)
    cases hqp : q.2.persona with
    | none => rw [hqp] at hq; simp at hq
    | some s =>
      have ih2 := ih (fun pr hpr => h pr (List.mem_cons_of_mem _ hpr))
      rw [show _available_personas (q :: t) = q.2.persona :: _available_personas t from rfl, hqp]
      rw [show sequenceOpts (some s :: _available_personas t) =
        (sequenceOpts (_available_personas t)).map (fun r => s :: r) from rfl]
      rw [ih2]
      simp [List.filterMap_cons, hqp]

theorem availableJoined_eq (pm : List (String × NewsletterDraft))
    (hall : ∀ pr ∈ pm, (pr.2).persona.isSome = true) :
    availableJoined pm =
      some (String.intercalate ", " (pm.filterMap (fun pr => pr.2.persona))) := by
  unfold availableJoined
  rw [sequenceOpts_all_some pm hall]
  rfl

theorem process_contact_not_missing
    (contact : Contact) (pm : List (String × NewsletterDraft)) (bt : String)
    (sendFn : String → NewsletterDraft → String → String → Except String ResendResponse)
    (now : String) (p : String) (hp : contact.persona = some p) (hne : p ≠ "") :
    _process_contact contact pm bt sendFn now ≠ .error .missingPersona := by
  unfold _process_contact
  rw [hp]
  cases hl : dictLookup pm (toLowerStr p) with
  | none => cases ha : availableJoined pm <;> simp [hne, hl, ha]
  | some nl =>
    by_cases ht : draftTruthy nl = true
    · cases hs : sendFn contact.email nl bt p with
      | error msg => simp [hne, hl, ht, hs]
      | ok r => cases hid : nl.newsletter_id <;> simp [hne, hl, ht, hs, hid]
    · have ht2 : draftTruthy nl = false := by
        cases hdt : draftTruthy nl
        · rfl
        · exact absurd hdt ht
      cases ha : availableJoined pm <;> simp [hne, hl, ht2, ha]

theorem process_contact_unknown_eq
    (contact : Contact) (pm : List (String × NewsletterDraft)) (bt : String)
    (sendFn : String → NewsletterDraft → String → String → Except String ResendResponse)
    (now : String) (p : String)
    (hall : ∀ pr ∈ pm, (pr.2).persona.isSome = true)
    (hp : contact.persona = some p) (hne : p ≠ "")
    (hl : dictLookup pm (toLowerStr p) = none) :
    _process_contact contact pm bt sendFn now =
      .error (.unknownPersona ("No newsletter prepared for persona '" ++ p ++
        "'. Available personas: " ++
        String.intercalate ", " (pm.filterMap (fun pr => pr.2.persona)))) := by
  unfold _process_contact
  rw [hp]
  simp [hne, hl, availableJoined_eq pm hall]

theorem process_contact_not_unknown
    (contact : Contact) (pm : List (String × NewsletterDraft)) (bt : String)
    (sendFn : String → NewsletterDraft → String → String → Except String ResendResponse)
    (now : String) (p : String) (nl : NewsletterDraft)
    (hall : ∀ pr ∈ pm, (pr.2).persona.isSome = true)
    (hp : contact.persona = some p) (hne : p ≠ "")
    (hl : dictLookup pm (toLowerStr p) = some nl) :
    ∀ msg, _process_contact contact pm bt sendFn now ≠ .error (.unknownPersona msg) := by
  intro msg
  have htr : draftTruthy nl = true := by
    obtain ⟨k2, hmem⟩ := dictLookup_mem pm _ nl hl
    have hper : nl.persona.isSome = true := hall (k2, nl) hmem
    simp [draftTruthy, hper]
  unfold _process_contact
  rw [hp]
  cases hs : sendFn contact.email nl bt p with
  | error m => simp [hne, hl, htr, hs]
  | ok r => cases hid : nl.newsletter_id <;> simp [hne, hl, htr, hs, hid]

/-- C8: under the invariant that every map value carries a persona string
(true of maps the loader builds from drafts that have persona fields),
`_process_contact` fails with the MissingPersona `ValueError` exactly when
the contact persona is absent or empty; for a present non-empty persona it
fails with an UnknownPersona `ValueError` exactly when the lower-cased
persona is not a key of the map, and the message then enumerates the
personas available in the campaign map, comma-joined in insertion order. -/
theorem process_contact_error_taxonomy
    (contact : Contact) (pm : List (String × NewsletterDraft)) (bt : String)
    (sendFn : String → NewsletterDraft → String → String → Except String ResendResponse)
    (now : String)
    (hall : ∀ pr ∈ pm, (pr.2).persona.isSome = true) :
    (_process_contact contact pm bt sendFn now = .error .missingPersona ↔
      (contact.persona = none ∨ contact.persona = some "")) ∧
    (∀ p, contact.persona = some p → p ≠ "" →
      (((∃ msg, _process_contact contact pm bt sendFn now = .error (.unknownPersona msg)) ↔
          dictLookup pm (toLowerStr p) = none) ∧
        (dictLookup pm (toLowerStr p) = none →
          _process_contact contact pm bt sendFn now =
            .error (.unknownPersona ("No newsletter prepared for persona '" ++ p ++
              "'. Available personas: " ++
              String.intercalate ", " (pm.filterMap (fun pr => pr.2.persona))))))) := by
  constructor
  · constructor
    · intro h
      cases hcp : contact.persona with
      | none => exact Or.inl rfl
      | some p =>
        by_cases hpe : p = ""
        · exact Or.inr (by rw [hpe])
        · exact absurd h (process_contact_not_missing contact pm bt sendFn now p hcp hpe)
    · intro h
      rcases h with h | h
      · unfold _process_contact
        rw [h]
      · unfold _process_contact
        rw [h]
        simp
  · intro p hp hne
    constructor
    · constructor
      · intro h
        obtain ⟨msg, hmsg⟩ := h
        cases hl : dictLookup pm (toLowerStr p) with
        | none => rfl
        | some nl =>
          exact absurd hmsg
            (process_contact_not_unknown contact pm bt sendFn now p nl hall hp hne hl msg)
      · intro hl
        exact ⟨_, process_contact_unknown_eq contact pm bt sendFn now p hall hp hne hl⟩
    · intro hl
      exact process_contact_unknown_eq contact pm bt sendFn now p hall hp hne hl

/-- Witness for C8 at concrete inputs: a contact without persona triggers
MissingPersona, and an unknown persona triggers the enumerating
UnknownPersona message. -/
theorem process_contact_error_taxonomy_witness :
    (_process_contact { email := "m@x.com" } (buildPersonaMap [{ persona := some "A" }]) "B"
        (fun _ _ _ _ => .ok { id := none }) "T" = .error .missingPersona) ∧
    (_process_contact { email := "u@x.com", persona := some "Zed" }
        (buildPersonaMap [{ persona := some "A" }]) "B"
        (fun _ _ _ _ => .ok { id := none }) "T" =
      .error (.unknownPersona
        "No newsletter prepared for persona 'Zed'. Available personas: A")) := by
  constructor
  · exact (process_contact_error_taxonomy { email := "m@x.com" }
      (buildPersonaMap [{ persona := some "A" }]) "B"
      (fun _ _ _ _ => .ok { id := none }) "T" (by decide)).1.mpr (Or.inl rfl)
  · have h := (process_contact_error_taxonomy { email := "u@x.com", persona := some "Zed" }
      (buildPersonaMap [{ persona := some "A" }]) "B"
      (fun _ _ _ _ => .ok { id := none }) "T" (by decide)).2 "Zed" rfl (by decide)
    exact (h.2 rfl).trans rfl

/-! Claims about the bulk orchestration path. -/

theorem orchLoop_all_ok (pm : List (String × NewsletterDraft)) (bt : String)
    (sendFn : String → NewsletterDraft → String → String → Except String ResendResponse)
    (now : Nat → String) :
    ∀ (contacts : List Contact) (i : Nat) (acc : List DeliveryLogEntry),
    (∀ c ∈ contacts, ∀ ts, okOrValueError (_process_contact c pm bt sendFn ts) = true) →
    orchLoop pm bt sendFn now contacts i acc =
      .ok (acc ++ collectOk pm bt sendFn now contacts i) := by
  intro contacts
  induction contacts with
  | nil => intro i acc h; simp [orchLoop, collectOk]
  | cons c t ih =>
    intro i acc h
    have hc := h c (List.mem_cons_self _ _) (now i)
    cases hres : _process_contact c pm bt sendFn (now i) with
    | ok e =>
      rw [show orchLoop pm bt sendFn now (c :: t) i acc =
        orchLoop pm bt sendFn now t (i + 1) (acc ++ [e]) from by simp [orchLoop, hres]]
      rw [ih (i + 1) (acc ++ [e]) (fun c2 h2 ts => h c2 (List.mem_cons_of_mem _ h2) ts)]
      rw [show collectOk pm bt sendFn now (c :: t) i =
        e :: collectOk pm bt sendFn now t (i + 1) from by simp [collectOk, hres]]
      simp
    | error err =>
      have hve : isValueError err = true := by rw [hres] at hc; exact hc
      rw [show orchLoop pm bt sendFn now (c :: t) i acc =
        orchLoop pm bt sendFn now t (i + 1) acc from by simp [orchLoop, hres, hve]]
      rw [ih (i + 1) acc (fun c2 h2 ts => h c2 (List.mem_cons_of_mem _ h2) ts)]
      rw [show collectOk pm bt sendFn now (c :: t) i =
        collectOk pm bt sendFn now t (i + 1) from by simp [collectOk, hres]]

theorem orchLoop_fatal (pm : List (String × NewsletterDraft)) (bt : String)
    (sendFn : String → NewsletterDraft → String → String → Except String ResendResponse)
    (now : Nat → String) :
    ∀ (pre : List Contact) (c : Contact) (rest : List Contact) (i : Nat)
      (acc : List DeliveryLogEntry) (err : SendError),
    (∀ c2 ∈ pre, ∀ ts, okOrValueError (_process_contact c2 pm bt sendFn ts) = true) →
    _process_contact c pm bt sendFn (now (i + pre.length)) = .error err →
    isValueError err = false →
    orchLoop pm bt sendFn now (pre ++ c :: rest) i acc = .error err := by
  intro pre
  induction pre with
  | nil =>
    intro c rest i acc err hpre hc hf
    rw [show i + List.length ([] : List Contact) = i from by simp] at hc
    rw [show (([] : List Contact) ++ c :: rest) = c :: rest from rfl]
    simp [orchLoop, hc, hf]
  | cons d pre2 ih =>
    intro c rest i acc err hpre hc hf
    have hd := hpre d (List.mem_cons_self _ _) (now i)
    have hc2 : _process_contact c pm bt sendFn (now ((i + 1) + pre2.length)) = .error err := by
      have heq : (i + 1) + pre2.length = i + (d :: pre2).length := by
        simp [List.length_cons]
        omega
      rw [heq]
      exact hc
    rw [show ((d :: pre2) ++ c :: rest) = d :: (pre2 ++ c :: rest) from rfl]
    cases hres : _process_contact d pm bt sendFn (now i) with
    | ok e =>
      rw [show orchLoop pm bt sendFn now (d :: (pre2 ++ c :: rest)) i acc =
        orchLoop pm bt sendFn now (pre2 ++ c :: rest) (i + 1) (acc ++ [e]) from by
          simp [orchLoop, hres]]
      exact ih c rest (i + 1) (acc ++ [e]) err
        (fun c2 h2 ts => hpre c2 (List.mem_cons_of_mem _ h2) ts) hc2 hf
    | error err2 =>
      have hve : isValueError err2 = true := by rw [hres] at hd; exact hd
      rw [show orchLoop pm bt sendFn now (d :: (pre2 ++ c :: rest)) i acc =
        orchLoop pm bt sendFn now (pre2 ++ c :: rest) (i + 1) acc from by
          simp [orchLoop, hres, hve]]
      exact ih c rest (i + 1) acc err
        (fun c2 h2 ts => hpre c2 (List.mem_cons_of_mem _ h2) ts) hc2 hf

/-- C2: when every contact either succeeds or raises a persona `ValueError`,
`orchestrate_campaign` skips exactly the `ValueError` contacts, returns the
successful entries in iteration order, and appends them to the delivery log
in one batch at the end, leaving the file unchanged when none succeeded; and
whenever some contact raises any other error (for example a delivery
rejection) after a prefix of successes and skips, that error propagates and
the whole batch aborts with nothing written. -/
theorem orchestrateBulk_skip_and_batch :
    (∀ (contacts : List Contact) (pm : List (String × NewsletterDraft)) (bt : String)
       (sendFn : String → NewsletterDraft → String → String → Except String ResendResponse)
       (now : Nat → String) (logFile : JsonFile DeliveryLogEntry),
      (∀ c ∈ contacts, ∀ ts, okOrValueError (_process_contact c pm bt sendFn ts) = true) →
      orchestrate_campaign contacts pm bt sendFn now logFile =
        .ok (collectOk pm bt sendFn now contacts 0,
             if (collectOk pm bt sendFn now contacts 0).isEmpty then logFile
             else .arr (readExistingList logFile ++ collectOk pm bt sendFn now contacts 0))) ∧
    (∀ (pre : List Contact) (c : Contact) (rest : List Contact)
       (pm : List (String × NewsletterDraft)) (bt : String)
       (sendFn : String → NewsletterDraft → String → String → Except String ResendResponse)
       (now : Nat → String) (logFile : JsonFile DeliveryLogEntry) (err : SendError),
      (∀ c2 ∈ pre, ∀ ts, okOrValueError (_process_contact c2 pm bt sendFn ts) = true) →
      _process_contact c pm bt sendFn (now pre.length) = .error err →
      isValueError err = false →
      orchestrate_campaign (pre ++ c :: rest) pm bt sendFn now logFile = .error err) := by
  constructor
  · intro contacts pm bt sendFn now logFile h
    unfold orchestrate_campaign
    rw [orchLoop_all_ok pm bt sendFn now contacts 0 [] h]
    simp [save_local_campaign_log]
  · intro pre c rest pm bt sendFn now logFile err hpre hc hf
    unfold orchestrate_campaign
    rw [orchLoop_fatal pm bt sendFn now pre c rest 0 [] err hpre (by simpa using hc) hf]

/-- Witness for C2: the spec scenario.  From a one-entry content log whose
newsletters cover the three personas, bulk sending to a@x.com (Startup
Founder) and b@x.com (Unknown Persona) yields exactly one DeliveryLogEntry,
for a@x.com, with b@x.com skipped; and a delivery rejection aborts a batch
with nothing written. -/
theorem orchestrateBulk_skip_and_batch_witness :
    (load_latest_campaign (JsonFile.arr [scenarioContentEntry]) =
      .ok (campaignOfEntry scenarioContentEntry)) ∧
    ((campaignOfEntry scenarioContentEntry).blog_title = "Blog") ∧
    (orchestrate_campaign scenarioContacts
        (campaignOfEntry scenarioContentEntry).newsletters
        "Blog" (fun _ _ _ _ => .ok { id := some "rid" }) (fun _ => "T")
        (JsonFile.arr []) =
      .ok ([scenarioEntryA], JsonFile.arr [scenarioEntryA])) ∧
    (orchestrate_campaign [{ email := "a@x.com", persona := some "Startup Founder" }]
        (buildPersonaMap [{ persona := some "Startup Founder" }]) "Blog"
        (fun _ _ _ _ => .error "boom") (fun _ => "T") (JsonFile.arr []) =
      .error (.deliveryRejected "boom")) := by
  refine ⟨rfl, rfl, ?_, ?_⟩
  · have h := orchestrateBulk_skip_and_batch.1
      scenarioContacts (campaignOfEntry scenarioContentEntry).newsletters
      "Blog" (fun _ _ _ _ => .ok { id := some "rid" }) (fun _ => "T") (JsonFile.arr [])
      (by
        intro c hc ts
        simp only [scenarioContacts, List.mem_cons, List.not_mem_nil, or_false] at hc
        rcases hc with rfl | rfl
        · rfl
        · rfl)
    exact h.trans rfl
  · have h := orchestrateBulk_skip_and_batch.2 []
      { email := "a@x.com", persona := some "Startup Founder" } []
      (buildPersonaMap [{ persona := some "Startup Founder" }]) "Blog"
      (fun _ _ _ _ => .error "boom") (fun _ => "T") (JsonFile.arr [])
      (.deliveryRejected "boom")
      (by intro c2 h2 ts; exact absurd h2 (List.not_mem_nil c2))
      rfl rfl
    exact h

/-! Claims about the log round trip. -/

/-- C7 counterexample: with an empty existing log file and zero new entries,
the append leaves an empty array and reloading raises the EmptyLog
`ValueError` rather than yielding the (empty) list of entries, so the
round-trip claim fails as universally stated. -/
theorem log_roundtrip_empty_counterexample :
    _load_campaign_entries (save_local_campaign_log ([] : List DeliveryLogEntry)
        (JsonFile.arr [])) = .error .emptyLog ∧
    _load_campaign_entries (save_local_campaign_log ([] : List DeliveryLogEntry)
        (JsonFile.arr [])) ≠
      .ok (readExistingList (JsonFile.arr ([] : List DeliveryLogEntry)) ++ []) := by
  refine ⟨rfl, ?_⟩
  intro h
  exact Except.noConfusion h

/-- C7 (amended): for every existing log state and sequence of new entries,
appending with `save_local_campaign_log` (or, entry by entry, with
`save_generated_content`) and reloading yields the previous entries followed
by exactly the new entries in their original order, newest last, with no
prior entry modified or dropped — provided the resulting log is non-empty;
reloading an empty result raises EmptyLog instead of yielding an empty
list. -/
theorem log_roundtrip_amended :
    (∀ {α : Type} (f : JsonFile α) (new : List α),
      readExistingList f ++ new ≠ [] →
      _load_campaign_entries (save_local_campaign_log new f) =
        .ok (readExistingList f ++ new)) ∧
    (∀ (items : List (String × String × ContentPackage)) (f : JsonFile ContentLogEntry),
      readExistingList f ++ items.map mkContentLogEntry ≠ [] →
      _load_campaign_entries (saveAllGenerated items f) =
        .ok (readExistingList f ++ items.map mkContentLogEntry)) := by
  constructor
  · intro α f new h
    have hie : (readExistingList f ++ new).isEmpty = false := by
      cases hc : readExistingList f ++ new
      · exact absurd hc h
      · rfl
    simp [save_local_campaign_log, _load_campaign_entries, hie]
  · intro items
    induction items with
    | nil =>
      intro f h
      cases f with
      | missing => simp [readExistingList] at h
      | invalid => simp [readExistingList] at h
      | obj e => rfl
      | arr es =>
        have hne : es ≠ [] := by simpa [readExistingList] using h
        have hie : es.isEmpty = false := by
          cases es
          · exact absurd rfl hne
          · rfl
        simp [saveAllGenerated, _load_campaign_entries, readExistingList, hie]
    | cons it t ih =>
      intro f h
      rw [show saveAllGenerated (it :: t) f =
        saveAllGenerated t (save_generated_content it.1 it.2.1 it.2.2 f) from rfl]
      have h2 : readExistingList (save_generated_content it.1 it.2.1 it.2.2 f) ++
          t.map mkContentLogEntry ≠ [] := by
        simp [save_generated_content, readExistingList]
      rw [ih (save_generated_content it.1 it.2.1 it.2.2 f) h2]
      simp [save_generated_content, readExistingList, mkContentLogEntry]

/-- Witness for the amended C7 theorem: appending one delivery entry to an
empty array and reloading yields exactly that entry, and one
`save_generated_content` call on a missing file followed by a reload yields
exactly the one content entry. -/
theorem log_roundtrip_amended_witness :
    _load_campaign_entries (save_local_campaign_log
        [({ email := "a@x.com", persona := "P", newsletter_id := "n-1", blog_title := "B",
            sent_at := "T", provider := "resend", resend_id := none } : DeliveryLogEntry)]
        (JsonFile.arr [])) =
      .ok [({ email := "a@x.com", persona := "P", newsletter_id := "n-1", blog_title := "B",
              sent_at := "T", provider := "resend", resend_id := none } : DeliveryLogEntry)] ∧
    _load_campaign_entries (saveAllGenerated [("TS", "Topic", { topic := some "Topic" })]
        JsonFile.missing) =
      .ok [{ timestamp := "TS", topic := some "Topic",
             content_package := some { topic := some "Topic" } }] := by
  constructor
  · exact (log_roundtrip_amended.1 (JsonFile.arr [])
      [({ email := "a@x.com", persona := "P", newsletter_id := "n-1", blog_title := "B",
          sent_at := "T", provider := "resend", resend_id := none } : DeliveryLogEntry)]
      (by simp [readExistingList])).trans rfl
  · exact (log_roundtrip_amended.2 [("TS", "Topic", { topic := some "Topic" })]
      JsonFile.missing (by simp [readExistingList, mkContentLogEntry])).trans rfl

/-! Claims about the performance analysis path. -/

/-- C9: when the summary construction around the text-generation
collaborator fails, `analyze_performance` does not fail: the snapshot has
already been computed and persisted, it is still returned, and the summary
is the string "Error generating AI summary: " followed by the exception
message; the failure neither prevents nor rolls back the snapshot write. -/
theorem analyze_performance_summary_failure_isolated
    (campaignFile : JsonFile LogEntryJ)
    (buildSummaryFn : List (String × PersonaStats) → Except String String)
    (entries : List LogEntryJ) (perf : List (String × PersonaStats)) (msg : String)
    (hload : _load_campaign_entries campaignFile = .ok entries)
    (hagg : _aggregate_performance entries = .ok perf)
    (hfail : buildSummaryFn perf = .error msg) :
    analyze_performance campaignFile buildSummaryFn =
      .ok { summary := "Error generating AI summary: " ++ msg,
            performance := perf, performance_file := some perf } := by
  unfold analyze_performance
  simp [hload, hagg, hfail]

/-- Witness for C9 at a concrete one-entry log and an always-failing
summary collaborator. -/
theorem analyze_performance_summary_failure_isolated_witness :
    analyze_performance (JsonFile.arr [{ email := some "a@x.com", persona := some "P" }])
        (fun _ => .error "boom") =
      .ok { summary := "Error generating AI summary: boom",
            performance := [("P", { send_count := 1, unique_contacts := 1,
                                    latest_blog := none, last_sent_at := "N/A" })],
            performance_file := some [("P", { send_count := 1, unique_contacts := 1,
                                              latest_blog := none,
                                              last_sent_at := "N/A" })] } := by
  have h := analyze_performance_summary_failure_isolated
    (JsonFile.arr [{ email := some "a@x.com", persona := some "P" }])
    (fun _ => .error "boom")
    [{ email := some "a@x.com", persona := some "P" }]
    [("P", { send_count := 1, unique_contacts := 1, latest_blog := none,
             last_sent_at := "N/A" })]
    "boom" rfl rfl rfl
  exact h

/-- C10: the aggregator catches only `ValueError` around timestamp parsing
and comparison; on a log whose group holds an aware timestamp (with offset)
followed by a naive one (without), the `sent_time > last_sent_at`
comparison raises the uncaught `TypeError`, so `_aggregate_performance`
aborts without producing a snapshot instead of ignoring the bad
timestamp. -/
theorem aggregate_mixed_timezone_type_error :
    _aggregate_performance
      [{ email := some "a@x.com", persona := some "P", blog_title := some "B",
         sent_at := some "2024-01-02T03:04:05+00:00" },
       { email := some "b@x.com", persona := some "P", blog_title := some "B",
         sent_at := some "2024-01-02T03:04:06" }] = .error .typeError := by
  rfl

/-! Auxiliary lemmas about the aggregation loop. -/

theorem updateStats_fields (st : RawStats) (e : LogEntryJ) (st2 : RawStats)
    (h : updateStats st e = .ok st2) :
    st2.send_count = st.send_count + 1 ∧
    st2.unique_contacts = setInsert st.unique_contacts e.email ∧
    st2.latest_blog = e.blog_title := by
  cases hs : e.sent_at with
  | none =>
    simp [updateStats, hs] at h
    subst h
    exact ⟨rfl, rfl, rfl⟩
  | some s =>
    by_cases hse : s = ""
    · simp [updateStats, hs, hse] at h
      subst h
      exact ⟨rfl, rfl, rfl⟩
    · cases hp : fromisoformat (pyReplaceZ s) with
      | error u =>
        simp [updateStats, hs, hse, hp] at h
        subst h
        exact ⟨rfl, rfl, rfl⟩
      | ok dt =>
        cases hl : st.last_sent_at with
        | none =>
          simp [updateStats, hs, hse, hp, hl] at h
          subst h
          exact ⟨rfl, rfl, rfl⟩
        | some prev =>
          cases hg : pyGT dt prev with
          | error u => simp [updateStats, hs, hse, hp, hl, hg] at h
          | ok b =>
            cases b
            · simp [updateStats, hs, hse, hp, hl, hg] at h
              subst h
              exact ⟨rfl, rfl, rfl⟩
            · simp [updateStats, hs, hse, hp, hl, hg] at h
              subst h
              exact ⟨rfl, rfl, rfl⟩

theorem groupFold_send_count : ∀ (g : List LogEntryJ) (st st2 : RawStats),
    groupFold st g = .ok st2 → st2.send_count = st.send_count + g.length := by
  intro g
  induction g with
  | nil =>
    intro st st2 h
    injection h with h2
    subst h2
    simp
  | cons e t ih =>
    intro st st2 h
    rw [show groupFold st (e :: t) =
      (match updateStats st e with
       | .error er => .error er
       | .ok s2 => groupFold s2 t) from rfl] at h
    cases hu : updateStats st e with
    | error er => rw [hu] at h; exact absurd h (by simp)
    | ok st1 =>
      rw [hu] at h
      have h2 := ih st1 st2 h
      have hf := (updateStats_fields st e st1 hu).1
      rw [h2, hf, List.length_cons]
      omega

theorem groupFold_unique : ∀ (g : List LogEntryJ) (st st2 : RawStats),
    groupFold st g = .ok st2 →
    st2.unique_contacts = (g.map (fun e => e.email)).foldl setInsert st.unique_contacts := by
  intro g
  induction g with
  | nil =>
    intro st st2 h
    injection h with h2
    subst h2
    rfl
  | cons e t ih =>
    intro st st2 h
    rw [show groupFold st (e :: t) =
      (match updateStats st e with
       | .error er => .error er
       | .ok s2 => groupFold s2 t) from rfl] at h
    cases hu : updateStats st e with
    | error er => rw [hu] at h; exact absurd h (by simp)
    | ok st1 =>
      rw [hu] at h
      have h2 := ih st1 st2 h
      have hf := (updateStats_fields st e st1 hu).2.1
      rw [h2, hf]
      rfl

theorem groupFold_latest : ∀ (g : List LogEntryJ) (st st2 : RawStats),
    groupFold st g = .ok st2 →
    st2.latest_blog =
      (match g.getLast? with
       | some e2 => e2.blog_title
       | none => st.latest_blog) := by
  intro g
  induction g with
  | nil =>
    intro st st2 h
    injection h with h2
    subst h2
    rfl
  | cons e t ih =>
    intro st st2 h
    rw [show groupFold st (e :: t) =
      (match updateStats st e with
       | .error er => .error er
       | .ok s2 => groupFold s2 t) from rfl] at h
    cases hu : updateStats st e with
    | error er => rw [hu] at h; exact absurd h (by simp)
    | ok st1 =>
      rw [hu] at h
      have h2 := ih st1 st2 h
      have hf := (updateStats_fields st e st1 hu).2.2
      cases t with
      | nil => exact h2.trans hf
      | cons b t2 =>
        rw [getLast?_cons_cons_gen]
        cases hx : (b :: t2).getLast? with
        | none => simp [List.getLast?] at hx
        | some y =>
          rw [hx] at h2
          exact h2

theorem personaGroup_nil (p : String) : personaGroup [] p = [] := rfl

theorem personaGroup_cons_eq (e : LogEntryJ) (t : List LogEntryJ) (p : String) :
    personaGroup (e :: t) p =
      if personaKey e = p then e :: personaGroup t p else personaGroup t p := by
  by_cases h : personaKey e = p <;> simp [personaGroup, List.filter_cons, h]

theorem aggLoop_lookup : ∀ (es : List LogEntryJ) (m m2 : List (String × RawStats)),
    aggLoop m es = .ok m2 → ∀ p,
    ((dictLookup m p = none → personaGroup es p = [] → dictLookup m2 p = none) ∧
     (∀ st0, dictLookup m p = some st0 →
        ∃ st2, groupFold st0 (personaGroup es p) = .ok st2 ∧ dictLookup m2 p = some st2) ∧
     (dictLookup m p = none → personaGroup es p ≠ [] →
        ∃ st2, groupFold defaultRawStats (personaGroup es p) = .ok st2 ∧
          dictLookup m2 p = some st2)) := by
  intro es
  induction es with
  | nil =>
    intro m m2 h p
    rw [show aggLoop m [] = .ok m from rfl] at h
    injection h with h2
    subst h2
    exact ⟨fun h1 _ => h1, fun st0 h1 => ⟨st0, rfl, h1⟩,
      fun h1 h2 => absurd (personaGroup_nil p) h2⟩
  | cons e t ih =>
    intro m m2 h p
    have hstep : ∃ st1,
        updateStats ((dictLookup m (personaKey e)).getD defaultRawStats) e = .ok st1 ∧
        aggLoop (dictSet m (personaKey e) st1) t = .ok m2 := by
      rw [show aggLoop m (e :: t) =
        (match stepEntry m e with
         | .error er => .error er
         | .ok m3 => aggLoop m3 t) from rfl] at h
      rw [show stepEntry m e =
        (match updateStats ((dictLookup m (personaKey e)).getD defaultRawStats) e with
         | .error er => .error er
         | .ok st => .ok (dictSet m (personaKey e) st)) from rfl] at h
      cases hu : updateStats ((dictLookup m (personaKey e)).getD defaultRawStats) e with
      | error er => rw [hu] at h; exact absurd h (by simp)
      | ok st1 =>
        rw [hu] at h
        exact ⟨st1, rfl, h⟩
    obtain ⟨st1, hu, hrest⟩ := hstep
    have IH := ih (dictSet m (personaKey e) st1) m2 hrest p
    by_cases hp : personaKey e = p
    · subst hp
      have hlk : dictLookup (dictSet m (personaKey e) st1) (personaKey e) = some st1 :=
        dictLookup_dictSet_self m (personaKey e) st1
      obtain ⟨st2, hgf, hm2⟩ := IH.2.1 st1 hlk
      rw [personaGroup_cons_eq, if_pos rfl]
      refine ⟨?_, ?_, ?_⟩
      · intro h1 h2
        exact absurd h2 (by simp)
      · intro st0 h1
        rw [h1] at hu
        refine ⟨st2, ?_, hm2⟩
        rw [show groupFold st0 (e :: personaGroup t (personaKey e)) =
          (match updateStats st0 e with
           | .error er => .error er
           | .ok s2 => groupFold s2 (personaGroup t (personaKey e))) from rfl]
        rw [show updateStats st0 e = .ok st1 from hu]
        exact hgf
      · intro h1 h2
        rw [h1] at hu
        refine ⟨st2, ?_, hm2⟩
        rw [show groupFold defaultRawStats (e :: personaGroup t (personaKey e)) =
          (match updateStats defaultRawStats e with
           | .error er => .error er
           | .ok s2 => groupFold s2 (personaGroup t (personaKey e))) from rfl]
        rw [show updateStats defaultRawStats e = .ok st1 from hu]
        exact hgf
    · have hlk : dictLookup (dictSet m (personaKey e) st1) p = dictLookup m p :=
        dictLookup_dictSet_ne m (personaKey e) p st1 hp
      rw [hlk] at IH
      rw [personaGroup_cons_eq, if_neg hp]
      exact IH

theorem setInsertFold_nodup : ∀ (xs init : List (Option String)),
    init.Nodup → (xs.foldl setInsert init).Nodup := by
  intro xs
  induction xs with
  | nil => intro init h; exact h
  | cons x t ih =>
    intro init h
    rw [show (x :: t).foldl setInsert init = t.foldl setInsert (setInsert init x) from rfl]
    apply ih
    unfold setInsert
    by_cases hx : x ∈ init
    · simp [hx, h]
    · rw [if_neg hx]
      rw [List.nodup_append]
      refine ⟨h, List.nodup_singleton x, ?_⟩
      intro a ha hax
      rw [List.mem_singleton] at hax
      exact hx (hax ▸ ha)

theorem setInsertFold_mem : ∀ (xs init : List (Option String)) (a : Option String),
    a ∈ xs.foldl setInsert init ↔ (a ∈ init ∨ a ∈ xs) := by
  intro xs
  induction xs with
  | nil => intro init a; simp
  | cons x t ih =>
    intro init a
    rw [show (x :: t).foldl setInsert init = t.foldl setInsert (setInsert init x) from rfl]
    rw [ih]
    unfold setInsert
    by_cases hx : x ∈ init
    · rw [if_pos hx]
      constructor
      · rintro (h1 | h1)
        · exact Or.inl h1
        · exact Or.inr (List.mem_cons_of_mem _ h1)
      · rintro (h1 | h1)
        · exact Or.inl h1
        · rcases List.mem_cons.mp h1 with rfl | h2
          · exact Or.inl hx
          · exact Or.inr h2
    · rw [if_neg hx]
      rw [List.mem_append, List.mem_singleton, List.mem_cons]
      tauto

theorem unique_count_eq (emails : List (Option String)) :
    ((emails.foldl setInsert []).filter truthyOptStr).length =
      (emails.filter truthyOptStr).toFinset.card := by
  have hnd : (emails.foldl setInsert []).Nodup := setInsertFold_nodup emails [] (by simp)
  have hndf : ((emails.foldl setInsert []).filter truthyOptStr).Nodup := hnd.filter _
  have hmemf : ∀ a, a ∈ (emails.foldl setInsert []).filter truthyOptStr ↔
      a ∈ emails.filter truthyOptStr := by
    intro a
    rw [List.mem_filter, List.mem_filter, setInsertFold_mem]
    simp
  have hts : ((emails.foldl setInsert []).filter truthyOptStr).toFinset =
      (emails.filter truthyOptStr).toFinset := by
    ext a
    rw [List.mem_toFinset, List.mem_toFinset, hmemf]
  rw [← hts]
  exact (List.toFinset_card_of_nodup hndf).symm

theorem dictLookup_map_finalize : ∀ (m : List (String × RawStats)) (p : String),
    dictLookup (m.map (fun kv => (kv.1, finalizeStats kv.2))) p =
      (dictLookup m p).map finalizeStats := by
  intro m
  induction m with
  | nil => intro p; rfl
  | cons kv t ih =>
    intro p
    obtain ⟨k, v⟩ := kv
    by_cases hk : k = p <;> simp [dictLookup, hk, ih]

/-- C3: whenever `_aggregate_performance` completes (no mixed aware/naive
timestamp comparison aborts it), it groups entries by the raw persona
string, with "Unknown" for entries lacking a persona; for every persona
that occurs, the snapshot row has send_count equal to the size of that
group (entries with missing or unparseable fields included),
unique_contacts equal to the number of distinct non-empty email values of
the group, and latest_blog equal to the blog_title of the group's last
entry in iteration order. -/
theorem aggregate_persona_group_stats
    (entries : List LogEntryJ) (snap : List (String × PersonaStats)) (p : String)
    (hagg : _aggregate_performance entries = .ok snap)
    (hocc : ∃ e ∈ entries, personaKey e = p) :
    ∃ ps, dictLookup snap p = some ps ∧
      ps.send_count = (personaGroup entries p).length ∧
      ps.unique_contacts =
        (((personaGroup entries p).map (fun e => e.email)).filter truthyOptStr).toFinset.card ∧
      (∀ e2, (personaGroup entries p).getLast? = some e2 →
        ps.latest_blog = e2.blog_title) := by
  unfold _aggregate_performance at hagg
  cases hal : aggLoop [] entries with
  | error er => rw [hal] at hagg; exact absurd hagg (by simp)
  | ok m =>
    rw [hal] at hagg
    injection hagg with hsnap
    subst hsnap
    have hgne : personaGroup entries p ≠ [] := by
      obtain ⟨e, hmem, hkey⟩ := hocc
      intro hempty
      have hin : e ∈ personaGroup entries p :=
        List.mem_filter.mpr ⟨hmem, by simp [hkey]⟩
      rw [hempty] at hin
      simp at hin
    obtain ⟨st2, hgf, hlm⟩ := (aggLoop_lookup entries [] m hal p).2.2 rfl hgne
    refine ⟨finalizeStats st2, ?_, ?_, ?_, ?_⟩
    · rw [dictLookup_map_finalize, hlm]
      rfl
    · have hsc := groupFold_send_count (personaGroup entries p) defaultRawStats st2 hgf
      simpa [finalizeStats, defaultRawStats] using hsc
    · have hu := groupFold_unique (personaGroup entries p) defaultRawStats st2 hgf
      rw [show (finalizeStats st2).unique_contacts =
        (st2.unique_contacts.filter truthyOptStr).length from rfl]
      rw [hu]
      rw [show defaultRawStats.unique_contacts = ([] : List (Option String)) from rfl]
      exact unique_count_eq ((personaGroup entries p).map (fun e => e.email))
    · intro e2 hlast
      have hl := groupFold_latest (personaGroup entries p) defaultRawStats st2 hgf
      rw [hlast] at hl
      exact hl

/-- Witness for C3: the spec scenario.  Three "Founder" entries with emails
a, a, b aggregate to send_count 3, unique_contacts 2, and latest_blog from
the last entry. -/
theorem aggregate_persona_group_stats_witness :
    _aggregate_performance founderEntries = .ok [("Founder", founderStats)] ∧
    ∃ ps, dictLookup [("Founder", founderStats)] "Founder" = some ps ∧
      ps.send_count = 3 ∧ ps.unique_contacts = 2 ∧ ps.latest_blog = some "B3" := by
  refine ⟨rfl, ?_⟩
  obtain ⟨ps, h1, h2, h3, h4⟩ := aggregate_persona_group_stats founderEntries
    [("Founder", founderStats)] "Founder" rfl
    ⟨{ email := some "a@x.com", persona := some "Founder", blog_title := some "B1" },
      by simp [founderEntries], rfl⟩
  refine ⟨ps, h1, ?_, ?_, ?_⟩
  · exact h2.trans (by rfl)
  · exact h3.trans (by decide)
  · exact h4 { email := some "b@x.com", persona := some "Founder", blog_title := some "B3" } rfl
